import Mathlib

/-!
Verification of the style-resolution engine of `inscriptis` (`inscriptis/css.py`).

The development shallowly embeds the Python module:

* Python strings are modelled as `List Char` (`str.lower`, `str.strip`,
  `str.split`, `str.replace` become the corresponding list functions below,
  faithful to CPython semantics on ASCII strings; `str.lower` and the
  regex class `\w` are Unicode-aware in Python, so theorems that quantify
  over arbitrary style strings carry an explicit ASCII hypothesis where
  that distinction could matter).
* `float(...)` on the decimal strings captured by the module's regular
  expression is modelled in two faithful stages: `pyFloatDec` performs the
  syntax check (`ValueError` on failure) and yields the exact decimal
  value, and `floatOfDec` rounds that decimal to the nearest IEEE-754
  binary64 double (ties to even), returning its exact value as a dyadic
  number — or an infinity marker past `2 ^ 1024`, on which the later
  `round` raises an uncaught `OverflowError`.  `value / 8` is IEEE double
  division (`doubleDiv8`, exact except below the subnormal quantum), and
  `int(round(x))` is exact round-half-to-even on the dyadic
  (`roundDyadic` / `pyRoundPair`; `pyRoundPair_spec` below proves the
  rounding characterization).
* The regular expression `([\-0-9\.]+)(\w+)` used by `CssParse.RE_UNIT`
  together with `re.search` is modelled operationally (`reSearch`):
  leftmost match, greedy first group over the class `[-0-9.]`, backtracking
  so that the second group `\w+` keeps at least one word character, greedy
  second group.
* Exceptions are modelled with `Except`: `CssParse._get_em` can fail with
  an `AttributeError` (when `re.search` returns `None`, so `m.group` is
  called on `None`), a `ValueError` (when `float` rejects the captured
  number), or an `OverflowError` (when `round` is applied to an infinite
  `float`).  The `try/except AttributeError` in `get_style_attribute`
  catches only the first; the other two propagate out of the whole
  resolution.
-/

deriving instance DecidableEq for Except

/-- Python `str.lower()` restricted to ASCII, applied characterwise. -/
def pyLower (cs : List Char) : List Char := cs.map Char.toLower

/-- The whitespace characters removed by Python's `str.strip()`: in the
ASCII range these are tab, newline, vertical tab, form feed, carriage
return, the separators 0x1C-0x1F, and space (exactly the ASCII characters
with `str.isspace()` true). -/
def pySpaceChar (c : Char) : Bool :=
  c = ' ' || c = '\t' || c = '\n' || c = '\r' || c = '\x0b' || c = '\x0c' ||
    c = '\x1c' || c = '\x1d' || c = '\x1e' || c = '\x1f'

/-- Python `str.strip()`: drop leading and trailing whitespace. -/
def pyStrip (cs : List Char) : List Char :=
  ((cs.dropWhile pySpaceChar).reverse.dropWhile pySpaceChar).reverse

/-- Python `str.split(sep)` for a one-character separator: splits into the
(possibly empty) pieces between occurrences of `sep`; the empty string
splits into `[[]]`. -/
def pySplit (sep : Char) : List Char → List (List Char)
  | [] => [[]]
  | c :: cs =>
    if c = sep then [] :: pySplit sep cs
    else
      match pySplit sep cs with
      | r :: rs => (c :: r) :: rs
      | [] => [[c]]

/-- Python `s.split(':', 1)` combined with the `':' in s` test: `none` when
the list holds no colon, otherwise the parts before and after the first
colon. -/
def splitOnceColon : List Char → Option (List Char × List Char)
  | [] => none
  | c :: cs =>
    if c = ':' then some ([], cs)
    else (splitOnceColon cs).map (fun p => (c :: p.1, p.2))

/-- Recursion core of `pyReplace`, structurally recursive on a fuel
parameter (`pyReplace` passes the input's length, which always suffices
because each step consumes at least one character). -/
def pyReplaceAux (pat rep : List Char) : Nat → List Char → List Char
  | 0, s => s
  | _ + 1, [] => []
  | fuel + 1, c :: cs =>
    if pat ≠ [] ∧ pat.isPrefixOf (c :: cs) then
      rep ++ pyReplaceAux pat rep fuel ((c :: cs).drop pat.length)
    else
      c :: pyReplaceAux pat rep fuel cs

/-- Python `str.replace(pat, rep)` for a nonempty pattern: replace all
non-overlapping occurrences, scanning left to right.  (The guard `pat ≠ []`
only departs from CPython for an empty pattern, which `css.py` never uses.) -/
def pyReplace (pat rep s : List Char) : List Char :=
  pyReplaceAux pat rep s.length s

/-- Numeric value of a digit string (most significant digit first). -/
def digitsVal (cs : List Char) : Nat :=
  cs.foldl (fun n c => 10 * n + (c.toNat - 48)) 0

/-- Syntax layer of Python `float(s)` on strings over the character class
`[-0-9.]` (the only strings the module ever passes to `float`): an optional
leading minus, then digits with at most one decimal point and at least one
digit overall; `none` models the `ValueError` that `float` raises
otherwise.  The accepted value is returned exactly, as a pair
`(man, scale)` denoting `man / 10 ^ scale`; the rounding of that decimal to
an IEEE-754 double — the value `float` actually returns — is performed by
`floatOfDec` below. -/
def pyFloatDec (cs : List Char) : Option (Int × Nat) :=
  let sb : Bool × List Char :=
    match cs with
    | '-' :: t => (true, t)
    | _ => (false, cs)
  let ip := sb.2.takeWhile Char.isDigit
  let rest := sb.2.dropWhile Char.isDigit
  let val? : Option (Int × Nat) :=
    match rest with
    | [] => if ip = [] then none else some ((digitsVal ip : Int), 0)
    | '.' :: fp =>
      if fp.all Char.isDigit ∧ (ip ≠ [] ∨ fp ≠ []) then
        some ((digitsVal ip * 10 ^ fp.length + digitsVal fp : Int), fp.length)
      else none
    | _ => none
  val?.map (fun v => (if sb.1 then -v.1 else v.1, v.2))

/-- Round half to even of `p / q` for integers `p` and `q > 0`, in exact
integer arithmetic.  Applied by `roundDyadic` to the exact dyadic value of
a finite double (where `q` is a power of two), it is exactly CPython's
`int(round(x))`, which rounds a finite double half to even without error;
`round` on an infinity instead raises `OverflowError`, handled separately
(`GetEmErr.overflowError`). -/
def pyRoundPair (p q : Int) : Int :=
  if 2 * (p - Int.fdiv p q * q) < q then Int.fdiv p q
  else if q < 2 * (p - Int.fdiv p q * q) then Int.fdiv p q + 1
  else if Int.fdiv p q % 2 = 0 then Int.fdiv p q else Int.fdiv p q + 1

/-- Recursion core of `natLog2`, structurally recursive on a fuel bound
(`natLog2 n` passes `n`, which always suffices since the argument at least
halves each step). -/
def natLog2Aux : Nat → Nat → Nat
  | 0, _ => 0
  | fuel + 1, n => if n ≤ 1 then 0 else natLog2Aux fuel (n / 2) + 1

/-- Floor of the base-two logarithm of a positive natural number:
`2 ^ natLog2 n ≤ n < 2 ^ (natLog2 n + 1)`. -/
def natLog2 (n : Nat) : Nat := natLog2Aux n n

/-- Round `n / d` (for `d > 0`) to the nearest natural number, ties to
even: the rounding applied at the final binary place by IEEE-754
round-to-nearest-even. -/
def roundHalfEvenNat (n d : Nat) : Nat :=
  if 2 * (n % d) < d then n / d
  else if d < 2 * (n % d) then n / d + 1
  else if n / d % 2 = 0 then n / d else n / d + 1

/-- Correctly rounded conversion of the exact decimal `m / 10 ^ k` to an
IEEE-754 binary64 double — the value CPython's `float()` returns for the
decimal string.  The result is the double's exact value as a dyadic number
`num * 2 ^ exp`; `none` means the decimal rounds beyond the double range
(`2 ^ 1024` and above after rounding at quantum `2 ^ 971` — detected as
`natLog2 s + e ≥ 1024`, equivalent since `2 ^ natLog2 s ≤ s`), where
`float` returns an infinity.  A value in `[2 ^ L, 2 ^ (L + 1))` is rounded to the
normal quantum `2 ^ (L - 52)` (53 significand bits); below `2 ^ (-1022)`
the subnormal quantum is the fixed `2 ^ (-1074)`, and values rounding to
`0` at that quantum underflow to zero. -/
def floatOfDec (m : Int) (k : Nat) : Option (Int × Int) :=
  if m = 0 then some (0, 0)
  else
    let M := m.natAbs
    let a := natLog2 M
    let b := natLog2 (10 ^ k)
    let cond : Bool :=
      if b ≤ a then decide (2 ^ (a - b) * 10 ^ k ≤ M)
      else decide (10 ^ k ≤ M * 2 ^ (b - a))
    let L : Int := if cond then (a : Int) - b else (a : Int) - b - 1
    let e : Int := max (L - 52) (-1074)
    let s : Nat :=
      if 0 ≤ e then roundHalfEvenNat M (10 ^ k * 2 ^ e.toNat)
      else roundHalfEvenNat (M * 2 ^ (-e).toNat) (10 ^ k)
    if 0 ≤ e ∧ 1024 ≤ natLog2 s + e.toNat then Option.none
    else some (if m < 0 then -(s : Int) else (s : Int), e)

/-- IEEE-754 division of a double (given as its exact dyadic value) by 8:
the exponent drops by 3; this is exact unless the result falls below the
subnormal quantum `2 ^ (-1074)`, where it is rounded to that quantum
(nearest, ties to even, symmetric in sign).  Division by 8 cannot
overflow. -/
def doubleDiv8 (v : Int × Int) : Int × Int :=
  if -1074 ≤ v.2 - 3 then (v.1, v.2 - 3)
  else
    let shift := (-1074 - (v.2 - 3)).toNat
    let n' := roundHalfEvenNat v.1.natAbs (2 ^ shift)
    (if v.1 < 0 then -(n' : Int) else (n' : Int), -1074)

/-- Python `int(round(x))` on a finite double given as its exact dyadic
value `num * 2 ^ exp`: round half to even, exactly. -/
def roundDyadic (v : Int × Int) : Int :=
  if 0 ≤ v.2 then v.1 * 2 ^ v.2.toNat
  else pyRoundPair v.1 (2 ^ (-v.2).toNat)

/-- Modelled from the spec: the `Display` enumeration provided by the
(absent) `inscriptis.html_properties` module — layout behaviour
`block`/`inline`/`none`. -/
inductive Display
  | inline
  | block
  | none
deriving DecidableEq

/-- Modelled from the spec: the `WhiteSpace` enumeration provided by the
(absent) `inscriptis.html_properties` module — `normal` collapses
whitespace, `pre` preserves it. -/
inductive WhiteSpace
  | normal
  | pre
deriving DecidableEq

/-- The `HtmlElement` property record of `css.py`: the eight CSS properties
inscriptis tracks for one HTML element.  (The Python attributes `prefix`
and `suffix` are named `prefix_s` and `suffix_s` here.) -/
structure HtmlElement where
  tag : String
  prefix_s : String
  suffix_s : String
  display : Display
  margin_before : Int
  margin_after : Int
  padding : Int
  whitespace : WhiteSpace
deriving DecidableEq

/-- The defaults of `HtmlElement.__init__`. -/
def defaultHtmlElement : HtmlElement :=
  ⟨"/", "", "", Display.inline, 0, 0, 0, WhiteSpace.normal⟩

/-- Model of `HtmlElement.clone`: a new record built from the eight fields of the
source. -/
def HtmlElement.clone (e : HtmlElement) : HtmlElement :=
  ⟨e.tag, e.prefix_s, e.suffix_s, e.display, e.margin_before,
   e.margin_after, e.padding, e.whitespace⟩

/-- A word character of the regular-expression class `\w`, on the ASCII
range: letter, digit or underscore.  Python's `\w` additionally matches
non-ASCII Unicode word characters; the resolution theorems quantifying
over arbitrary style strings therefore carry an explicit ASCII hypothesis,
on which this predicate agrees with Python exactly. -/
def wordChar (c : Char) : Bool := c.isAlphanum || c = '_'

/-- A character of the class `[\-0-9\.]` of `CssParse.RE_UNIT`. -/
def numChar (c : Char) : Bool := c = '-' || c.isDigit || c = '.'

/-- Whether a list starts with a word character (what `\w+` needs to start
matching). -/
def headIsWord : List Char → Bool
  | [] => false
  | c :: _ => wordChar c

namespace CssParse

/-- Backtracking step of matching `([\-0-9\.]+)(\w+)` at a fixed position:
`g1rev` is the reversed current candidate for the greedy first group and
`tail` the input after it.  If `\w+` can start at `tail`, the match
succeeds with the greedy word run as second group; otherwise the first
group gives back its last character (the regex engine's backtracking) until
it would become empty. -/
def reBT : List Char → List Char → Option (List Char × List Char)
  | [], _ => none
  | c :: g1rev, tail =>
    if headIsWord tail then
      some ((c :: g1rev).reverse, tail.takeWhile wordChar)
    else
      reBT g1rev (c :: tail)

/-- Model of `CssParse.RE_UNIT.search`: the leftmost match of `([\-0-9\.]+)(\w+)`,
returning the two captured groups.  At each starting position the first
group greedily takes the maximal run of `[-0-9.]` characters and backtracks
via `reBT`; on failure the search advances one character. -/
def reSearch : List Char → Option (List Char × List Char)
  | [] => none
  | c :: cs =>
    if numChar c then
      match reBT ((c :: cs).takeWhile numChar).reverse ((c :: cs).dropWhile numChar) with
      | some m => some m
      | none => reSearch cs
    else reSearch cs

/-- The three failure modes of `CssParse._get_em`: `attributeError` models
`m.group(...)` on `m = None` (an `AttributeError`, caught by the caller's
`try/except AttributeError`); `valueError` models `float(...)` rejecting
the captured number; `overflowError` models `round(...)` on the infinity
`float` returns for a decimal beyond the double range.  The latter two are
not caught and abort the whole resolution. -/
inductive GetEmErr
  | attributeError
  | valueError
  | overflowError
deriving DecidableEq

/-- Model of `CssParse._get_em`: search the value with `RE_UNIT`; `float`
the first group (syntax check `pyFloatDec`, then correctly rounded binary
conversion `floatOfDec`, an infinity making the later `round` raise
`OverflowError`); if the unit (second group) is not `em`, `qem` or `rem`,
the result is `int(round(value / 8))`, otherwise `int(round(value))`, on
the double's exact dyadic value. -/
def get_em (length : List Char) : Except GetEmErr Int :=
  match reSearch length with
  | Option.none => .error .attributeError
  | some (g1, g2) =>
    match pyFloatDec g1 with
    | Option.none => .error .valueError
    | some (man, scale) =>
      match floatOfDec man scale with
      | Option.none => .error .overflowError
      | some v =>
        if ¬(g2 = "em".toList ∨ g2 = "qem".toList ∨ g2 = "rem".toList) then
          .ok (roundDyadic (doubleDiv8 v))
        else
          .ok (roundDyadic v)

/-- Model of `CssParse._attr_display`: `block` and `none` map to the corresponding
display modes, anything else to `inline`. -/
def attr_display (value : List Char) (e : HtmlElement) : HtmlElement :=
  if value = "block".toList then { e with display := Display.block }
  else if value = "none".toList then { e with display := Display.none }
  else { e with display := Display.inline }

/-- The handler functions reachable through `getattr(CssParse, "_attr_" + key)`:
`_attr_display`, `_attr_margin_top` (alias `_attr_margin_before`),
`_attr_margin_bottom` (alias `_attr_margin_after`) and `_attr_padding_left`
(alias `_attr_padding_start`). -/
inductive Handler
  | display
  | marginTop
  | marginBottom
  | paddingLeft
deriving DecidableEq

/-- Key normalization of `get_style_attribute`:
`key.replace('-webkit-', '').replace('-', '_')`. -/
def normKey (k : List Char) : List Char :=
  pyReplace "-".toList "_".toList (pyReplace "-webkit-".toList [] k)

/-- The `getattr(CssParse, "_attr_" + key, ...)` lookup: exactly the seven
`_attr_*` attributes of the class exist (three of them aliases), every
other key raises `AttributeError` (caught by the caller). -/
def findHandler (k : List Char) : Option Handler :=
  if k = "display".toList then some .display
  else if k = "margin_top".toList ∨ k = "margin_before".toList then some .marginTop
  else if k = "margin_bottom".toList ∨ k = "margin_after".toList then some .marginBottom
  else if k = "padding_left".toList ∨ k = "padding_start".toList then some .paddingLeft
  else Option.none

/-- One iteration of the loop of `get_style_attribute` on a single
declaration: skip it when it holds no colon; split at the first colon and
strip both sides; look the normalized key up (an unknown key's
`AttributeError` is caught); run the handler, catching an `AttributeError`
from `_get_em` but letting a `ValueError` escape. -/
def applyDirective (d : List Char) (e : HtmlElement) : Except Unit HtmlElement :=
  match splitOnceColon d with
  | Option.none => .ok e
  | some (k0, v0) =>
    match findHandler (normKey (pyStrip k0)) with
    | Option.none => .ok e
    | some .display => .ok (attr_display (pyStrip v0) e)
    | some .marginTop =>
      match get_em (pyStrip v0) with
      | .ok n => .ok { e with margin_before := n }
      | .error .attributeError => .ok e
      | .error .valueError => .error ()
      | .error .overflowError => .error ()
    | some .marginBottom =>
      match get_em (pyStrip v0) with
      | .ok n => .ok { e with margin_after := n }
      | .error .attributeError => .ok e
      | .error .valueError => .error ()
      | .error .overflowError => .error ()
    | some .paddingLeft =>
      match get_em (pyStrip v0) with
      | .ok n => .ok { e with padding := n }
      | .error .attributeError => .ok e
      | .error .valueError => .error ()
      | .error .overflowError => .error ()

/-- The declaration loop of `get_style_attribute`, threading the working
record; an escaping `ValueError` aborts the remaining declarations. -/
def resolveList : List (List Char) → HtmlElement → Except Unit HtmlElement
  | [], e => .ok e
  | d :: ds, e =>
    match applyDirective d e with
    | .ok e' => resolveList ds e'
    | .error u => .error u

/-- Model of `CssParse.get_style_attribute`: clone the element, lower-case the whole
style string, split it on `;` and apply each declaration in order. -/
def get_style_attribute (style : String) (e : HtmlElement) : Except Unit HtmlElement :=
  resolveList (pySplit ';' (pyLower style.toList)) e.clone

/-- The declaration loop again, but also threading the baseline object the
caller passed: the loop body only ever hands the cloned working record to a
handler, so the baseline travels through every iteration untouched — this
makes the Python objects' separation explicit. -/
def resolveListTracked :
    List (List Char) → HtmlElement → HtmlElement → Except Unit HtmlElement × HtmlElement
  | [], cust, base => (.ok cust, base)
  | d :: ds, cust, base =>
    match applyDirective d cust with
    | .ok c' => resolveListTracked ds c' base
    | .error u => (.error u, base)

/-- Variant of `get_style_attribute` with the baseline object tracked through the
call: the second component is the state of the caller's record when the
call returns (normally or by exception). -/
def getStyleAttributeTracked (style : String) (e : HtmlElement) :
    Except Unit HtmlElement × HtmlElement :=
  resolveListTracked (pySplit ';' (pyLower style.toList)) e.clone e

/-- Whether processing one declaration raises an uncaught error: the
declaration has a colon, its normalized key selects a length handler, and
`_get_em` on its value finds a regex match whose number `float` rejects
(`ValueError`) or whose value overflows the double range so that `round`
raises (`OverflowError`).  This does not depend on the record the
declaration is applied to. -/
def directiveRaises (d : List Char) : Bool :=
  match splitOnceColon d with
  | Option.none => false
  | some (k0, v0) =>
    match findHandler (normKey (pyStrip k0)) with
    | Option.none => false
    | some .display => false
    | some _ =>
      match get_em (pyStrip v0) with
      | .error .valueError => true
      | .error .overflowError => true
      | _ => false

/-- The em length a declaration successfully stores into a numeric field,
when it does store one. -/
def directiveLength (d : List Char) : Option Int :=
  match splitOnceColon d with
  | Option.none => Option.none
  | some (k0, v0) =>
    match findHandler (normKey (pyStrip k0)) with
    | some .marginTop | some .marginBottom | some .paddingLeft =>
      match get_em (pyStrip v0) with
      | .ok n => some n
      | .error _ => Option.none
    | _ => Option.none

end CssParse

/-- The `DEFAULT_CSS` table of `css.py`: the baseline `HtmlElement` of each
tag name. -/
def DEFAULT_CSS : List (String × HtmlElement) :=
  [("head", ⟨"head", "", "", Display.none, 0, 0, 0, WhiteSpace.normal⟩),
   ("link", ⟨"link", "", "", Display.none, 0, 0, 0, WhiteSpace.normal⟩),
   ("meta", ⟨"meta", "", "", Display.none, 0, 0, 0, WhiteSpace.normal⟩),
   ("script", ⟨"script", "", "", Display.none, 0, 0, 0, WhiteSpace.normal⟩),
   ("title", ⟨"title", "", "", Display.none, 0, 0, 0, WhiteSpace.normal⟩),
   ("style", ⟨"style", "", "", Display.none, 0, 0, 0, WhiteSpace.normal⟩),
   ("p", ⟨"p", "", "", Display.block, 1, 1, 0, WhiteSpace.normal⟩),
   ("figure", ⟨"figure", "", "", Display.block, 1, 1, 0, WhiteSpace.normal⟩),
   ("h1", ⟨"h1", "", "", Display.block, 1, 1, 0, WhiteSpace.normal⟩),
   ("h2", ⟨"h2", "", "", Display.block, 1, 1, 0, WhiteSpace.normal⟩),
   ("h3", ⟨"h3", "", "", Display.block, 1, 1, 0, WhiteSpace.normal⟩),
   ("h4", ⟨"h4", "", "", Display.block, 1, 1, 0, WhiteSpace.normal⟩),
   ("h5", ⟨"h5", "", "", Display.block, 1, 1, 0, WhiteSpace.normal⟩),
   ("h6", ⟨"h6", "", "", Display.block, 1, 1, 0, WhiteSpace.normal⟩),
   ("ul", ⟨"ul", "", "", Display.block, 0, 0, 4, WhiteSpace.normal⟩),
   ("ol", ⟨"ol", "", "", Display.block, 0, 0, 4, WhiteSpace.normal⟩),
   ("li", ⟨"li", "", "", Display.block, 0, 0, 0, WhiteSpace.normal⟩),
   ("address", ⟨"address", "", "", Display.block, 0, 0, 0, WhiteSpace.normal⟩),
   ("article", ⟨"article", "", "", Display.block, 0, 0, 0, WhiteSpace.normal⟩),
   ("aside", ⟨"aside", "", "", Display.block, 0, 0, 0, WhiteSpace.normal⟩),
   ("div", ⟨"div", "", "", Display.block, 0, 0, 0, WhiteSpace.normal⟩),
   ("footer", ⟨"footer", "", "", Display.block, 0, 0, 0, WhiteSpace.normal⟩),
   ("header", ⟨"header", "", "", Display.block, 0, 0, 0, WhiteSpace.normal⟩),
   ("hgroup", ⟨"hgroup", "", "", Display.block, 0, 0, 0, WhiteSpace.normal⟩),
   ("layer", ⟨"layer", "", "", Display.block, 0, 0, 0, WhiteSpace.normal⟩),
   ("main", ⟨"main", "", "", Display.block, 0, 0, 0, WhiteSpace.normal⟩),
   ("nav", ⟨"nav", "", "", Display.block, 0, 0, 0, WhiteSpace.normal⟩),
   ("figcaption", ⟨"figcaption", "", "", Display.block, 0, 0, 0, WhiteSpace.normal⟩),
   ("blockquote", ⟨"blockquote", "", "", Display.block, 0, 0, 0, WhiteSpace.normal⟩),
   ("q", ⟨"q", "\"", "\"", Display.inline, 0, 0, 0, WhiteSpace.normal⟩),
   ("span", ⟨"span", "", "", Display.inline, 0, 0, 0, WhiteSpace.normal⟩)]

/-- Dictionary access `DEFAULT_CSS[tag]` (as an `Option`). -/
def defaultCssLookup (t : String) : Option HtmlElement :=
  (DEFAULT_CSS.find? (fun p => p.1 == t)).map Prod.snd

/-- Reference number parse following the spec's words for the length
grammar: an optional leading minus, digits, and an optional fractional part
(a dot followed by digits; a dot not followed by a digit is not consumed).
Returns the exact value as mantissa/scale together with the rest of the
input. -/
def specNumAt (cs : List Char) : Option ((Int × Nat) × List Char) :=
  let sb : Bool × List Char :=
    match cs with
    | '-' :: t => (true, t)
    | _ => (false, cs)
  let ip := sb.2.takeWhile Char.isDigit
  if ip = [] then Option.none
  else
    let rest := sb.2.dropWhile Char.isDigit
    let vr : (Int × Nat) × List Char :=
      match rest with
      | '.' :: t =>
        let fp := t.takeWhile Char.isDigit
        if fp = [] then ((digitsVal ip, 0), rest)
        else ((digitsVal ip * 10 ^ fp.length + digitsVal fp, fp.length),
              t.dropWhile Char.isDigit)
      | _ => ((digitsVal ip, 0), rest)
    some ((if sb.1 then -vr.1.1 else vr.1.1, vr.1.2), vr.2)

/-- Reference extraction following the claim's words: the first (leftmost)
number, with the unit being the run of letters that follows it — possibly
empty, so that unitless values still match. -/
def getEmSpecSearch : List Char → Option ((Int × Nat) × List Char)
  | [] => Option.none
  | c :: cs =>
    match specNumAt (c :: cs) with
    | some (v, rest) => some (v, rest.takeWhile Char.isAlpha)
    | Option.none => getEmSpecSearch cs

/-- The claim's reference definition of length conversion: extract the
first number+unit match; `em`, `rem` and `qem` give the rounded value
itself; any other unit — including unitless values — gives the value
divided by 8 and rounded. -/
def getEmSpec (s : List Char) : Option Int :=
  (getEmSpecSearch s).map fun vu =>
    if vu.2 = "em".toList ∨ vu.2 = "qem".toList ∨ vu.2 = "rem".toList then
      pyRoundPair vu.1.1 (10 ^ vu.1.2)
    else
      pyRoundPair vu.1.1 (8 * 10 ^ vu.1.2)

example : pyRoundPair 1 2 = 0 := by decide
example : pyRoundPair 3 2 = 2 := by decide
example : pyRoundPair (-1) 2 = 0 := by decide
example : pyRoundPair (-5) 1 = -5 := by decide
example : pyFloatDec "1.25".toList = some (125, 2) := by decide
example : pyFloatDec "-".toList = Option.none := by decide
example : pyFloatDec "5.".toList = some (5, 0) := by decide
example : pyFloatDec ".5".toList = some (5, 1) := by decide
example : pyFloatDec "1.2.3".toList = Option.none := by decide
example : pyFloatDec "-0.5".toList = some (-5, 1) := by decide
example : pySplit ';' "a;;b".toList = ["a".toList, [], "b".toList] := by decide
example : pySplit ';' "".toList = [[]] := by decide
example : pyStrip "  none ".toList = "none".toList := by decide
example : pyReplace "-webkit-".toList [] "-webkit-margin-before".toList
    = "margin-before".toList := by decide
example : splitOnceColon "a:b:c".toList = some ("a".toList, "b:c".toList) := by
  decide

example : CssParse.reSearch "16px".toList = some ("16".toList, "px".toList) := by
  decide
example : CssParse.reSearch "55".toList = some ("5".toList, "5".toList) := by
  decide
example : CssParse.reSearch "5".toList = Option.none := by decide
example : CssParse.reSearch "abc".toList = Option.none := by decide
example : CssParse.reSearch "-em".toList = some ("-".toList, "em".toList) := by
  decide
example : CssParse.reSearch ".5em".toList = some (".5".toList, "em".toList) := by
  decide
example : CssParse.reSearch "5.".toList = Option.none := by decide
example : CssParse.get_em "16px".toList = .ok 2 := by decide
example : CssParse.get_em "3em".toList = .ok 3 := by decide
example : CssParse.get_em "4px".toList = .ok 0 := by decide
example : CssParse.get_em "-5em".toList = .ok (-5) := by decide
example : CssParse.get_em "abc".toList = .error .attributeError := by decide
example : CssParse.get_em "-em".toList = .error .valueError := by decide
example : CssParse.normKey "-webkit-margin-before".toList
    = "margin_before".toList := by decide
example : CssParse.get_style_attribute "margin-top:2em" defaultHtmlElement
    = .ok { defaultHtmlElement with margin_before := 2 } := by decide
example : CssParse.get_style_attribute "margin-top:-em" defaultHtmlElement
    = .error () := by decide
example : CssParse.get_style_attribute "DISPLAY: NONE" defaultHtmlElement
    = .ok { defaultHtmlElement with display := Display.none } := by decide
example : CssParse.get_style_attribute "color:red" defaultHtmlElement
    = .ok defaultHtmlElement := by decide
example : defaultCssLookup "p"
    = some ⟨"p", "", "", Display.block, 1, 1, 0, WhiteSpace.normal⟩ := by decide
example : floatOfDec 1 1 = some (7205759403792794, -56) := by decide
example : floatOfDec 5 1 = some (4503599627370496, -53) := by decide
example : floatOfDec (-5) 1 = some (-4503599627370496, -53) := by decide
example : floatOfDec 4 0 = some (4503599627370496, -50) := by decide
example : floatOfDec 0 5 = some (0, 0) := by decide
example : CssParse.get_em "0.50000000000000001em".toList = .ok 0 := by decide
example : CssParse.get_em "9007199254740993em".toList
    = .ok 9007199254740992 := by decide
example : floatOfDec 3 1 = some (5404319552844595, -54) := by decide
set_option maxRecDepth 100000 in
set_option exponentiation.threshold 4000 in
example : CssParse.get_em (List.replicate 308 '9' ++ "em".toList)
    ≠ .error .overflowError := by decide
example : getEmSpec "16px".toList = some 2 := by decide
example : getEmSpec "3em".toList = some 3 := by decide
example : getEmSpec "5".toList = some 1 := by decide
example : getEmSpec ".5em".toList = some 5 := by decide

/-!  Helper lemmas.  -/

/-- Correctness of `pyRoundPair`: the result `f` is within a half of `p / q`
(stated multiplied out in integers), and an exact tie is broken towards the
even integer. -/
theorem pyRoundPair_spec (p q f : Int) (hq : 0 < q) (hf : f = pyRoundPair p q) :
    -q ≤ 2 * (p - f * q) ∧ 2 * (p - f * q) ≤ q ∧
      (2 * (p - f * q) = q → f % 2 = 0) ∧ (2 * (p - f * q) = -q → f % 2 = 0) := by
  subst hf
  have hd : q * Int.fdiv p q + Int.fmod p q = p := Int.fdiv_add_fmod p q
  have h0 : 0 ≤ Int.fmod p q := Int.fmod_nonneg' p hq
  have h1 : Int.fmod p q < q := Int.fmod_lt_of_pos p hq
  rw [Int.mul_comm] at hd
  have hexp : (Int.fdiv p q + 1) * q = Int.fdiv p q * q + q := by ring
  unfold pyRoundPair
  split
  · omega
  · split
    · omega
    · split
      · omega
      · omega

namespace CssParse

/-- Structure of a successful backtracking step: the first group is a
nonempty selection of the candidate's characters and the second group is a
nonempty run of word characters. -/
theorem reBT_sound (g1rev tail a b : List Char)
    (h : reBT g1rev tail = some (a, b)) :
    a ≠ [] ∧ (∀ c ∈ a, c ∈ g1rev) ∧ b ≠ [] ∧ ∀ c ∈ b, wordChar c = true := by
  induction g1rev generalizing tail with
  | nil => simp [reBT] at h
  | cons c g1rev ih =>
    rw [reBT] at h
    by_cases hw : headIsWord tail
    · rw [if_pos hw] at h
      have ha : (c :: g1rev).reverse = a ∧ tail.takeWhile wordChar = b := by
        simpa using h
      obtain ⟨ha, hb⟩ := ha
      subst ha
      subst hb
      refine ⟨by simp, ?_, ?_, ?_⟩
      · intro x hx
        simpa using List.mem_reverse.mp hx
      · cases tail with
        | nil => simp [headIsWord] at hw
        | cons t ts =>
          have hwt : wordChar t = true := by simpa [headIsWord] using hw
          simp [List.takeWhile_cons_of_pos hwt]
      · intro x hx
        exact List.mem_takeWhile_imp hx
    · rw [if_neg hw] at h
      obtain ⟨ha, hmem, hb, hword⟩ := ih (c :: tail) h
      exact ⟨ha, fun x hx => List.mem_cons_of_mem c (hmem x hx), hb, hword⟩

/-- Structure of a successful `RE_UNIT` search: the first captured group is
a nonempty run over the class `[-0-9.]` and the second a nonempty run of
word characters. -/
theorem reSearch_sound (s g1 g2 : List Char)
    (h : reSearch s = some (g1, g2)) :
    g1 ≠ [] ∧ (∀ c ∈ g1, numChar c = true) ∧ g2 ≠ [] ∧
      ∀ c ∈ g2, wordChar c = true := by
  induction s with
  | nil => simp [reSearch] at h
  | cons c cs ih =>
    rw [reSearch] at h
    by_cases hn : numChar c
    · rw [if_pos hn] at h
      rcases hbt : reBT ((c :: cs).takeWhile numChar).reverse
          ((c :: cs).dropWhile numChar) with _ | m
      · rw [hbt] at h
        exact ih h
      · rw [hbt] at h
        obtain rfl : m = (g1, g2) := by simpa using h
        obtain ⟨ha, hmem, hb, hword⟩ := reBT_sound _ _ _ _ hbt
        refine ⟨ha, ?_, hb, hword⟩
        intro x hx
        have hx' : x ∈ (c :: cs).takeWhile numChar :=
          List.mem_reverse.mp (hmem x hx)
        exact List.mem_takeWhile_imp hx'
    · rw [if_neg hn] at h
      exact ih h

/-- The tracked loop returns the same resolution result as the plain loop
and hands the baseline back unchanged. -/
theorem resolveListTracked_eq (ds : List (List Char)) (cust base : HtmlElement) :
    resolveListTracked ds cust base = (resolveList ds cust, base) := by
  induction ds generalizing cust with
  | nil => rfl
  | cons d ds ih =>
    rw [resolveListTracked, resolveList]
    rcases applyDirective d cust with u | e'
    · rfl
    · exact ih e'

/-- A declaration that does not raise applies successfully to every
record. -/
theorem applyDirective_ok (d : List Char) (e : HtmlElement)
    (h : directiveRaises d = false) : ∃ e', applyDirective d e = .ok e' := by
  rw [directiveRaises] at h
  rw [applyDirective]
  rcases hkv : splitOnceColon d with _ | ⟨k0, v0⟩
  · exact ⟨e, rfl⟩
  · simp only [hkv] at h ⊢
    rcases hh : findHandler (normKey (pyStrip k0)) with _ | hnd
    · simp only [hh]
      exact ⟨e, rfl⟩
    · simp only [hh] at h ⊢
      cases hnd with
      | display => exact ⟨attr_display (pyStrip v0) e, rfl⟩
      | marginTop =>
        rcases hg : get_em (pyStrip v0) with err | n
        · cases err with
          | attributeError => simp only [hg]; exact ⟨e, rfl⟩
          | valueError => simp [hg] at h
          | overflowError => simp [hg] at h
        · simp only [hg]
          exact ⟨{ e with margin_before := n }, rfl⟩
      | marginBottom =>
        rcases hg : get_em (pyStrip v0) with err | n
        · cases err with
          | attributeError => simp only [hg]; exact ⟨e, rfl⟩
          | valueError => simp [hg] at h
          | overflowError => simp [hg] at h
        · simp only [hg]
          exact ⟨{ e with margin_after := n }, rfl⟩
      | paddingLeft =>
        rcases hg : get_em (pyStrip v0) with err | n
        · cases err with
          | attributeError => simp only [hg]; exact ⟨e, rfl⟩
          | valueError => simp [hg] at h
          | overflowError => simp [hg] at h
        · simp only [hg]
          exact ⟨{ e with padding := n }, rfl⟩

/-- A declaration list without raising declarations resolves successfully
from every record. -/
theorem resolveList_ok (ds : List (List Char)) (e : HtmlElement)
    (h : ∀ d ∈ ds, directiveRaises d = false) :
    ∃ r, resolveList ds e = .ok r := by
  induction ds generalizing e with
  | nil => exact ⟨e, rfl⟩
  | cons d ds ih =>
    obtain ⟨e', he'⟩ := applyDirective_ok d e (h d (List.mem_cons_self d ds))
    obtain ⟨r, hr⟩ := ih e' (fun x hx => h x (List.mem_cons_of_mem d hx))
    refine ⟨r, ?_⟩
    rw [resolveList]
    simp only [he']
    exact hr

/-- A single successfully applied declaration keeps the numeric fields
non-negative, provided the length it stores (when it stores one) is
non-negative. -/
theorem applyDirective_nonneg (d : List Char) (e e' : HtmlElement)
    (hl : ∀ n, directiveLength d = some n → 0 ≤ n)
    (h : applyDirective d e = .ok e')
    (h1 : 0 ≤ e.margin_before) (h2 : 0 ≤ e.margin_after) (h3 : 0 ≤ e.padding) :
    0 ≤ e'.margin_before ∧ 0 ≤ e'.margin_after ∧ 0 ≤ e'.padding := by
  rw [directiveLength] at hl
  rw [applyDirective] at h
  rcases hkv : splitOnceColon d with _ | ⟨k0, v0⟩
  · rw [hkv] at h
    obtain rfl : e = e' := by simpa using h
    exact ⟨h1, h2, h3⟩
  · simp only [hkv] at h hl
    rcases hh : findHandler (normKey (pyStrip k0)) with _ | hnd
    · simp only [hh] at h
      obtain rfl : e = e' := by simpa using h
      exact ⟨h1, h2, h3⟩
    · simp only [hh] at h hl
      cases hnd with
      | display =>
        obtain rfl : attr_display (pyStrip v0) e = e' := by simpa using h
        rw [attr_display]
        split
        · exact ⟨h1, h2, h3⟩
        · split
          · exact ⟨h1, h2, h3⟩
          · exact ⟨h1, h2, h3⟩
      | marginTop =>
        rcases hg : get_em (pyStrip v0) with err | n
        · cases err with
          | attributeError =>
            simp only [hg] at h
            obtain rfl : e = e' := by simpa using h
            exact ⟨h1, h2, h3⟩
          | valueError => simp [hg] at h
          | overflowError => simp [hg] at h
        · simp only [hg] at h hl
          obtain rfl : { e with margin_before := n } = e' := by simpa using h
          exact ⟨hl n rfl, h2, h3⟩
      | marginBottom =>
        rcases hg : get_em (pyStrip v0) with err | n
        · cases err with
          | attributeError =>
            simp only [hg] at h
            obtain rfl : e = e' := by simpa using h
            exact ⟨h1, h2, h3⟩
          | valueError => simp [hg] at h
          | overflowError => simp [hg] at h
        · simp only [hg] at h hl
          obtain rfl : { e with margin_after := n } = e' := by simpa using h
          exact ⟨h1, hl n rfl, h3⟩
      | paddingLeft =>
        rcases hg : get_em (pyStrip v0) with err | n
        · cases err with
          | attributeError =>
            simp only [hg] at h
            obtain rfl : e = e' := by simpa using h
            exact ⟨h1, h2, h3⟩
          | valueError => simp [hg] at h
          | overflowError => simp [hg] at h
        · simp only [hg] at h hl
          obtain rfl : { e with padding := n } = e' := by simpa using h
          exact ⟨h1, h2, hl n rfl⟩

/-- The declaration loop keeps the numeric fields non-negative when every
stored length is non-negative. -/
theorem resolveList_nonneg (ds : List (List Char)) (e r : HtmlElement)
    (hl : ∀ d ∈ ds, ∀ n, directiveLength d = some n → 0 ≤ n)
    (h : resolveList ds e = .ok r)
    (h1 : 0 ≤ e.margin_before) (h2 : 0 ≤ e.margin_after) (h3 : 0 ≤ e.padding) :
    0 ≤ r.margin_before ∧ 0 ≤ r.margin_after ∧ 0 ≤ r.padding := by
  induction ds generalizing e with
  | nil =>
    rw [resolveList] at h
    obtain rfl : e = r := by simpa using h
    exact ⟨h1, h2, h3⟩
  | cons d ds ih =>
    rw [resolveList] at h
    rcases happ : applyDirective d e with u | e'
    · simp [happ] at h
    · simp only [happ] at h
      obtain ⟨g1, g2, g3⟩ :=
        applyDirective_nonneg d e e' (hl d (List.mem_cons_self d ds)) happ h1 h2 h3
      exact ih e' (fun x hx => hl x (List.mem_cons_of_mem d hx)) h g1 g2 g3

end CssParse

/-!  Claim theorems.  -/

/-- C1 (amended): for ASCII style strings (where the model of `\w` is
exact), resolution silently ignores declarations without a colon,
declarations whose normalized key has no handler, and length declarations
whose value has no `RE_UNIT` match (the internal `AttributeError` is
caught) — each leaves the record unchanged and processing continues, so a
style string all of whose declarations are of these non-raising kinds
resolves without error.  However (see the counterexample) a length value
whose regex match captures a number that `float` rejects raises an
uncaught `ValueError`, and one whose number overflows the double range
makes `round(inf)` raise an uncaught `OverflowError`; either aborts the
whole resolution. -/
theorem c1_error_tolerance (style : String) (e : HtmlElement)
    (_hascii : ∀ c ∈ style.toList, c.toNat < 128)
    (h : ∀ d ∈ pySplit ';' (pyLower style.toList),
      CssParse.directiveRaises d = false) :
    (∃ r, CssParse.get_style_attribute style e = .ok r) ∧
    (∀ d el, splitOnceColon d = Option.none →
      CssParse.applyDirective d el = .ok el) ∧
    (∀ d el k0 v0, splitOnceColon d = some (k0, v0) →
      CssParse.findHandler (CssParse.normKey (pyStrip k0)) = Option.none →
      CssParse.applyDirective d el = .ok el) ∧
    (∀ d el k0 v0 hnd, splitOnceColon d = some (k0, v0) →
      CssParse.findHandler (CssParse.normKey (pyStrip k0)) = some hnd →
      hnd ≠ CssParse.Handler.display →
      CssParse.get_em (pyStrip v0) = .error .attributeError →
      CssParse.applyDirective d el = .ok el) := by
  refine ⟨?_, ?_, ?_, ?_⟩
  · exact CssParse.resolveList_ok _ e.clone h
  · intro d el hkv
    rw [CssParse.applyDirective, hkv]
  · intro d el k0 v0 hkv hh
    rw [CssParse.applyDirective]
    simp only [hkv, hh]
  · intro d el k0 v0 hnd hkv hh hd hg
    rw [CssParse.applyDirective]
    simp only [hkv, hh]
    cases hnd with
    | display => exact absurd rfl hd
    | marginTop => simp only [hg]
    | marginBottom => simp only [hg]
    | paddingLeft => simp only [hg]

set_option maxRecDepth 100000 in
set_option exponentiation.threshold 4000 in
/-- C1 counterexample: the declaration `margin-top:-em` makes resolution
raise.  `RE_UNIT` matches the value `-em` with first group `-` and second
group `em`; `float('-')` raises a `ValueError`, which the
`except AttributeError` clause does not catch, so `get_style_attribute`
propagates the error instead of ignoring the malformed length.  A length
of 309 nines likewise aborts resolution: `float` returns an infinity and
`round(inf)` raises an uncaught `OverflowError`. -/
theorem c1_counterexample :
    CssParse.get_style_attribute "margin-top:-em" defaultHtmlElement
        = .error () ∧
    CssParse.reSearch "-em".toList = some ("-".toList, "em".toList) ∧
    pyFloatDec "-".toList = Option.none ∧
    CssParse.get_em (List.replicate 309 '9' ++ "em".toList)
        = .error .overflowError ∧
    CssParse.get_style_attribute
        (String.mk ("margin-top:".toList ++ List.replicate 309 '9'
          ++ "em".toList)) defaultHtmlElement = .error () := by
  decide

/-- C1 witness: a length declaration whose value has no regex match is
ignored, leaving the record unchanged. -/
theorem c1_witness :
    CssParse.applyDirective "margin-top:abc".toList defaultHtmlElement
      = .ok defaultHtmlElement :=
  (c1_error_tolerance "" defaultHtmlElement (by decide) (by decide)).2.2.2
    "margin-top:abc".toList defaultHtmlElement "margin-top".toList
    "abc".toList CssParse.Handler.marginTop (by decide) (by decide)
    (by decide) (by decide)

/-- C2 (amended): the numeric fields are integers that resolution passes
through unclamped; whenever the baseline's numeric fields are non-negative
and every length a declaration successfully stores is non-negative, the
resolved record's `margin_before`, `margin_after` and `padding` are
non-negative.  (A negative length yields a negative field — see the
counterexample.) -/
theorem c2_nonnegative_fields (style : String) (e r : HtmlElement)
    (h1 : 0 ≤ e.margin_before) (h2 : 0 ≤ e.margin_after) (h3 : 0 ≤ e.padding)
    (hl : ∀ d ∈ pySplit ';' (pyLower style.toList), ∀ n,
      CssParse.directiveLength d = some n → 0 ≤ n)
    (hr : CssParse.get_style_attribute style e = .ok r) :
    0 ≤ r.margin_before ∧ 0 ≤ r.margin_after ∧ 0 ≤ r.padding :=
  CssParse.resolveList_nonneg _ e.clone r hl hr h1 h2 h3

/-- C2 counterexample: resolving `margin-top:-5em` against a baseline with
non-negative numeric fields yields a record with `margin_before = -5 < 0`:
negative lengths are stored as-is, so the numeric fields are not always
non-negative. -/
theorem c2_counterexample :
    defaultHtmlElement.margin_before = 0 ∧
    defaultHtmlElement.margin_after = 0 ∧
    defaultHtmlElement.padding = 0 ∧
    CssParse.get_style_attribute "margin-top:-5em" defaultHtmlElement
      = .ok { defaultHtmlElement with margin_before := -5 } ∧
    ({ defaultHtmlElement with margin_before := -5 } : HtmlElement).margin_before
      < 0 := by
  decide

/-- C2 witness: resolving `margin-top:2em` against the default record keeps
all numeric fields non-negative. -/
theorem c2_witness :
    0 ≤ ({ defaultHtmlElement with margin_before := 2 } : HtmlElement).margin_before ∧
    0 ≤ ({ defaultHtmlElement with margin_before := 2 } : HtmlElement).margin_after ∧
    0 ≤ ({ defaultHtmlElement with margin_before := 2 } : HtmlElement).padding :=
  c2_nonnegative_fields "margin-top:2em" defaultHtmlElement
    { defaultHtmlElement with margin_before := 2 }
    (by decide) (by decide) (by decide) (by decide) (by decide)

/-- C3 (amended): on ASCII values (where the model of `\w` is exact),
length conversion follows the reference shape — extract the first
`RE_UNIT` match, then `em`/`qem`/`rem` units give the rounded value itself
and every other unit gives the value divided by 8 and rounded — but with
the code's token classes and `float` semantics: the unit is a nonempty run
of word characters (letters, digits or underscore), so a truly unitless
value has no match and conversion fails with the caught `AttributeError`
instead of being divided by 8; the number is a nonempty run over `[-0-9.]`
(so `.5em` parses its fraction directly); a captured number rejected by
`float` raises an uncaught `ValueError`; and the value rounded is the
IEEE-754 double nearest the decimal — beyond the double range `float`
returns an infinity and `round` raises an uncaught `OverflowError`. -/
theorem c3_length_conversion_amended (s : List Char)
    (_hascii : ∀ c ∈ s, c.toNat < 128) :
    (CssParse.reSearch s = Option.none →
      CssParse.get_em s = .error .attributeError) ∧
    ∀ g1 g2, CssParse.reSearch s = some (g1, g2) →
      g1 ≠ [] ∧ (∀ c ∈ g1, numChar c = true) ∧ g2 ≠ [] ∧
      (∀ c ∈ g2, wordChar c = true) ∧
      CssParse.get_em s =
        (match pyFloatDec g1 with
         | Option.none => .error .valueError
         | some ms =>
           match floatOfDec ms.1 ms.2 with
           | Option.none => .error .overflowError
           | some v =>
             if g2 = "em".toList ∨ g2 = "qem".toList ∨ g2 = "rem".toList then
               .ok (roundDyadic v)
             else
               .ok (roundDyadic (doubleDiv8 v))) := by
  constructor
  · intro h
    rw [CssParse.get_em]
    simp only [h]
  · intro g1 g2 h
    obtain ⟨h1, h2, h3, h4⟩ := CssParse.reSearch_sound s g1 g2 h
    refine ⟨h1, h2, h3, h4, ?_⟩
    rw [CssParse.get_em]
    simp only [h]
    rcases hf : pyFloatDec g1 with _ | ⟨man, scale⟩
    · simp only [hf]
    · simp only [hf]
      rcases hfd : floatOfDec man scale with _ | v
      · simp only [hfd]
      · simp only [hfd]
        by_cases hu : g2 = "em".toList ∨ g2 = "qem".toList ∨ g2 = "rem".toList
        · rw [if_neg (not_not_intro hu), if_pos hu]
        · rw [if_pos hu, if_neg hu]

/-- C3 counterexample: the code does not equal the claim's reference
definition.  On the unitless value `5` the reference gives
`round(5 / 8) = 1` while `_get_em` finds no `RE_UNIT` match (the unit needs
at least one word character) and fails; on `.5em` the reference's number
grammar (optional minus, digits, optional fraction) skips the leading dot
and yields `round(5) = 5`, while the code's `[-0-9.]` number class captures
`.5` and yields `round(0.5) = 0`. -/
theorem c3_counterexample :
    getEmSpec "5".toList = some 1 ∧
    CssParse.get_em "5".toList = .error .attributeError ∧
    getEmSpec ".5em".toList = some 5 ∧
    CssParse.get_em ".5em".toList = .ok 0 := by
  decide

/-- C3 witness: on `16px` the match is `('16', 'px')` and the conversion
yields `round(16 / 8) = 2`. -/
theorem c3_witness : CssParse.get_em "16px".toList = .ok 2 :=
  (((c3_length_conversion_amended "16px".toList (by decide)).2 "16".toList
    "px".toList (by decide)).2.2.2.2).trans (by decide)

/-- C4: resolution never mutates its baseline argument — tracking the
baseline object through the loop (which only ever hands the clone to a
handler) returns it unchanged whatever the style string, while producing
exactly `get_style_attribute`'s result; in particular a record looked up in
`DEFAULT_CSS` comes back unchanged from any resolution, so repeated lookups
of the same tag return field-equal records. -/
theorem c4_baseline_unchanged (style : String) (e : HtmlElement) :
    (CssParse.getStyleAttributeTracked style e).2 = e ∧
    (CssParse.getStyleAttributeTracked style e).1
      = CssParse.get_style_attribute style e ∧
    ∀ t el, defaultCssLookup t = some el →
      (CssParse.getStyleAttributeTracked style el).2 = el := by
  refine ⟨?_, ?_, ?_⟩
  · rw [CssParse.getStyleAttributeTracked, CssParse.resolveListTracked_eq]
  · rw [CssParse.getStyleAttributeTracked, CssParse.resolveListTracked_eq]
    rfl
  · intro t el hel
    rw [CssParse.getStyleAttributeTracked, CssParse.resolveListTracked_eq]

/-- C4 witness: the `p` baseline from `DEFAULT_CSS` survives a resolution
unchanged. -/
theorem c4_witness :
    (CssParse.getStyleAttributeTracked "margin-top:2em"
        ⟨"p", "", "", Display.block, 1, 1, 0, WhiteSpace.normal⟩).2
      = ⟨"p", "", "", Display.block, 1, 1, 0, WhiteSpace.normal⟩ :=
  (c4_baseline_unchanged "margin-top:2em" defaultHtmlElement).2.2 "p"
    ⟨"p", "", "", Display.block, 1, 1, 0, WhiteSpace.normal⟩ (by decide)

/-- C5: resolving the empty style string returns a record equal to the
baseline in all eight fields, and `clone` returns a record with field
values identical to its source. -/
theorem c5_empty_style_identity (e : HtmlElement) :
    CssParse.get_style_attribute "" e = .ok e ∧ e.clone = e :=
  ⟨rfl, rfl⟩

/-- C6: declarations apply left to right and a later declaration for the
same property overwrites an earlier one: `margin-top:1em;margin-top:2em`
yields `margin_before = 2` for every baseline. -/
theorem c6_last_declaration_wins (e : HtmlElement) :
    ∃ r, CssParse.get_style_attribute "margin-top:1em;margin-top:2em" e
        = .ok r ∧ r.margin_before = 2 :=
  ⟨{ e with margin_before := 2 }, rfl, rfl⟩

/-- C7: the display handler maps `block` to `Display.block`, `none` to
`Display.none` and every other value to `Display.inline`; in particular
resolving `display:inline-block` yields `display = inline`. -/
theorem c7_display_fallback (e : HtmlElement) :
    (CssParse.attr_display "block".toList e).display = Display.block ∧
    (CssParse.attr_display "none".toList e).display = Display.none ∧
    (∀ v, v ≠ "block".toList → v ≠ "none".toList →
      (CssParse.attr_display v e).display = Display.inline) ∧
    ∃ r, CssParse.get_style_attribute "display:inline-block" e = .ok r ∧
      r.display = Display.inline := by
  refine ⟨rfl, rfl, ?_, ⟨{ e with display := Display.inline }, rfl, rfl⟩⟩
  intro v h1 h2
  rw [CssParse.attr_display, if_neg h1, if_neg h2]

/-- C7 witness: `inline-block` is neither `block` nor `none`, so the
handler falls back to `inline`. -/
theorem c7_witness :
    (CssParse.attr_display "inline-block".toList defaultHtmlElement).display
      = Display.inline :=
  (c7_display_fallback defaultHtmlElement).2.2.1 "inline-block".toList
    (by decide) (by decide)

/-- C8: key normalization strips the literal `-webkit-` substring anywhere
in the key and replaces `-` with `_`; the aliases `margin_before`,
`margin_after` and `padding_start` resolve to the same handlers as
`margin_top`, `margin_bottom` and `padding_left`; resolving
`-webkit-margin-before:2em` yields `margin_before = 2`. -/
theorem c8_vendor_prefix_and_aliases (e : HtmlElement) :
    CssParse.normKey "-webkit-margin-before".toList = "margin_before".toList ∧
    CssParse.normKey "margin--webkit-top".toList = "margin_top".toList ∧
    CssParse.findHandler "margin_before".toList
      = CssParse.findHandler "margin_top".toList ∧
    CssParse.findHandler "margin_after".toList
      = CssParse.findHandler "margin_bottom".toList ∧
    CssParse.findHandler "padding_start".toList
      = CssParse.findHandler "padding_left".toList ∧
    ∃ r, CssParse.get_style_attribute "-webkit-margin-before:2em" e = .ok r ∧
      r.margin_before = 2 :=
  ⟨rfl, rfl, rfl, rfl, rfl, ⟨{ e with margin_before := 2 }, rfl, rfl⟩⟩

/-- C9: the whole style string is lower-cased before splitting, so keys and
values are case-insensitive: `DISPLAY: NONE` yields `display = none`. -/
theorem c9_case_insensitive (e : HtmlElement) :
    pyLower "DISPLAY: NONE".toList = "display: none".toList ∧
    ∃ r, CssParse.get_style_attribute "DISPLAY: NONE" e = .ok r ∧
      r.display = Display.none :=
  ⟨rfl, ⟨{ e with display := Display.none }, rfl, rfl⟩⟩

/-- C10: the rounding rule of length conversion is round half to even:
`4px` (0.5) rounds to 0, `12px` (1.5) to 2, `2.5em` to 2 and `3.5em`
to 4. -/
theorem c10_rounding_half_to_even :
    CssParse.get_em "4px".toList = .ok 0 ∧
    CssParse.get_em "12px".toList = .ok 2 ∧
    CssParse.get_em "2.5em".toList = .ok 2 ∧
    CssParse.get_em "3.5em".toList = .ok 4 := by
  decide
